import Mathlib

/-!
# Formal model of the sitemap-indexer worker subsystem

A shallow embedding of the worker code of the repository: the Google
Indexing API submitter, the IndexNow submitter (both the worker and the
`IndexingService` batch path), the URL store (batch upsert and project
counters), the recursive sitemap scanner and the `SitemapStreamer`, the
SAX sitemap parse loop, and the WebSocket event bus.  Each definition is
translated from the corresponding source function; theorems about the
specification's claims follow the definitions.
-/

namespace SitemapIndexer

/-! ## Google Indexing API submitter
(`googleSubmitterWorker` and `submitSingleUrl` in the worker jobs file) -/

/-- `CONFIG.DAILY_QUOTA` of the Google submitter. -/
def DAILY_QUOTA : Nat := 200

/-- `CONFIG.MAX_RETRIES` passed to `pRetry` by both submitters. -/
def MAX_RETRIES : Nat := 3

/-- Outcome of one HTTP request to the Google Indexing API: a resolved
2xx response, or a thrown error carrying the response status and message
(the googleapis client throws on every non-2xx status). -/
inductive GResp where
  | ok (status : Nat)
  | err (status : Nat) (message : String)
deriving Repr, DecidableEq

/-- `pRetry(fn, { retries })`: issue the request for attempt index
`attempt`; on a thrown error, retry while retry budget (`fuel`) remains.
Returns the final response and the number of requests issued. -/
def runWithRetries (env : Nat → GResp) : Nat → Nat → GResp × Nat
  | attempt, fuel =>
    match env attempt, fuel with
    | .ok s, _ => (.ok s, 1)
    | .err s m, 0 => (.err s m, 1)
    | .err _ _, fuel' + 1 =>
      let r := runWithRetries env (attempt + 1) fuel'
      (r.1, r.2 + 1)

/-- The responses received for one URL, in request order (same traversal
as `runWithRetries`, keeping every response instead of the last). -/
def attemptResponses (env : Nat → GResp) : Nat → Nat → List GResp
  | attempt, fuel =>
    match env attempt, fuel with
    | .ok s, _ => [.ok s]
    | .err s m, 0 => [.err s m]
    | .err s m, fuel' + 1 => .err s m :: attemptResponses env (attempt + 1) fuel'

/-- `SubmissionResult` of the Google submitter. -/
structure SubmissionResult where
  urlId : String
  success : Bool
  responseCode : Option Nat
  error : Option String
deriving Repr, DecidableEq

/-- `submitSingleUrl(indexing, urlRecord, action)`: publish one URL
notification under `pRetry` with `CONFIG.MAX_RETRIES`; a final thrown
error is caught and recorded as a failed result with the status code and
message.  The environment `env` maps a url id and attempt index to the
API's response.  Also returns the number of requests issued. -/
def submitSingleUrl (env : String → Nat → GResp) (urlRecord : String × String) :
    SubmissionResult × Nat :=
  match runWithRetries (env urlRecord.1) 0 MAX_RETRIES with
  | (.ok s, n) =>
    ({ urlId := urlRecord.1, success := true, responseCode := some s, error := none }, n)
  | (.err s m, n) =>
    ({ urlId := urlRecord.1, success := false, responseCode := some s, error := some m }, n)

/-- The data the worker produces when the handler returns normally. -/
structure GoogleJobOk where
  urlsToSubmit : List String
  results : List SubmissionResult
  successCount : Nat
  failCount : Nat
  newUsed : Nat
  requestLog : List (String × GResp)
deriving Repr, DecidableEq

/-- The `googleSubmitterWorker` handler: read the quota row, compute
`remainingQuota = DAILY_QUOTA - used`, throw when it is not positive,
truncate `urlIds` to the remaining quota, fetch the `{id, loc}` rows,
submit each sequentially through `submitSingleUrl`, and upsert the quota
row with `used = used + successCount`.  `db` is the urls table projected
to `(id, loc)`; `used` is the existing quota row's `used` (0 when the
row is absent). -/
def googleSubmitterJob (env : String → Nat → GResp) (db : List (String × String))
    (used : Nat) (urlIds : List String) : Except String GoogleJobOk :=
  let remainingQuota : Int := (DAILY_QUOTA : Int) - (used : Int)
  if remainingQuota ≤ 0 then
    .error "Daily Google Indexing API quota exhausted"
  else
    let urlsToSubmit := urlIds.take remainingQuota.toNat
    let urlRecords := db.filter (fun r => urlsToSubmit.contains r.1)
    let results := urlRecords.map (fun r => (submitSingleUrl env r).1)
    let successCount := (results.filter (fun r => r.success)).length
    let failCount := (results.filter (fun r => !r.success)).length
    .ok
      { urlsToSubmit := urlsToSubmit
        results := results
        successCount := successCount
        failCount := failCount
        newUsed := used + successCount
        requestLog :=
          (urlRecords.map (fun r =>
            (attemptResponses (env r.1) 0 MAX_RETRIES).map (fun resp => (r.1, resp)))).flatten }

/-- `pat` matches at the head of `s`. -/
def matchesAt : List Char → List Char → Bool
  | [], _ => true
  | _ :: _, [] => false
  | p :: ps, c :: cs => p == c && matchesAt ps cs

/-- `pat` occurs somewhere in `s`. -/
def occursIn (pat : List Char) : List Char → Bool
  | [] => matchesAt pat []
  | c :: cs => matchesAt pat (c :: cs) || occursIn pat cs

/-- JavaScript `String.prototype.includes`. -/
def containsSub (s pat : String) : Bool :=
  occursIn pat.data s.data

/-- A `Fatal-PerJob` Google response in the sense of the specification:
a 403 whose message mentions permission or ownership, or a 429 whose
message mentions quota. -/
def isFatalPerJob : GResp → Bool
  | .err 403 m => containsSub m "permission" || containsSub m "ownership"
  | .err 429 m => containsSub m "quota"
  | _ => false

/-! ## IndexNow submitter worker (`indexNowSubmitterWorker`, `submitToEngine`) -/

/-- Outcome of one `fetch` call of the worker's `submitToEngine`: a
response with its HTTP status, or a thrown network error. -/
inductive INResp where
  | resp (status : Nat)
  | netErr (message : String)
deriving Repr, DecidableEq

/-- `res.ok` of the Fetch API: status in the 2xx range. -/
def fetchOk (status : Nat) : Bool :=
  200 ≤ status && status < 300

/-- `submitToEngine(engine, endpoint, urlList, config)`: POST the whole
`urlList` under `pRetry` with `CONFIG.MAX_RETRIES`; every non-2xx status
throws and is retried; a final failure is caught and reported as
`success = false`.  Returns the success flag and the number of calls
issued.  The traversal mirrors `runWithRetries`; there is no batch
splitting in this function. -/
def submitToEngineLoop (env : Nat → INResp) : Nat → Nat → Bool × Nat
  | attempt, fuel =>
    match env attempt, fuel with
    | .resp s, 0 => (fetchOk s, 1)
    | .resp s, fuel' + 1 =>
      if fetchOk s then (true, 1)
      else
        let r := submitToEngineLoop env (attempt + 1) fuel'
        (r.1, r.2 + 1)
    | .netErr _, 0 => (false, 1)
    | .netErr _, fuel' + 1 =>
      let r := submitToEngineLoop env (attempt + 1) fuel'
      (r.1, r.2 + 1)

/-- One engine submission of the worker: `pRetry` with 3 retries. -/
def submitToEngine (env : Nat → INResp) : Bool × Nat :=
  submitToEngineLoop env 0 MAX_RETRIES

/-- `INDEXNOW_ENDPOINTS` keys, in `Object.entries` order. -/
def INDEXNOW_ENGINES : List String := ["bing", "yandex", "seznam", "naver"]

/-- The data the IndexNow worker handler produces. -/
structure IndexNowJobOk where
  urlRecords : List (String × String)
  successfulEngines : List String
  failedEngines : List String
  /-- One `Submission` row per url record: `(urlId, status)`. -/
  submissionStatuses : List (String × String)
  quotaDelta : Nat
  newUsed : Nat
deriving Repr, DecidableEq

/-- The `indexNowSubmitterWorker` handler after credential loading: fetch
the `{id, loc}` rows for `urlIds`, submit the whole list to each engine
via `submitToEngine`, write one `Submission` row per url with status
`COMPLETED` when at least one engine accepted and `FAILED` otherwise,
and upsert the quota row with `used = used + urlIds.length`.
`env engine attempt` is the response of `engine` to call `attempt`. -/
def indexNowSubmitterJob (env : String → Nat → INResp) (db : List (String × String))
    (used : Nat) (urlIds : List String) : IndexNowJobOk :=
  let urlRecords := db.filter (fun r => urlIds.contains r.1)
  let engineResults := INDEXNOW_ENGINES.map (fun e => (e, (submitToEngine (env e)).1))
  let successfulEngines := (engineResults.filter (fun p => p.2)).map Prod.fst
  let failedEngines := (engineResults.filter (fun p => !p.2)).map Prod.fst
  let status := if successfulEngines.length > 0 then "COMPLETED" else "FAILED"
  { urlRecords := urlRecords
    successfulEngines := successfulEngines
    failedEngines := failedEngines
    submissionStatuses := urlRecords.map (fun r => (r.1, status))
    quotaDelta := urlIds.length
    newUsed := used + urlIds.length }

/-! ## `IndexingService.attemptIndexNowBatch` (the service-layer batch path) -/

/-- Outcome of one `fetchWithSmartProxy` call: a response carrying the
proxy's `ok` flag, the HTTP status and the body text, or a thrown
network error. -/
inductive FetchRes where
  | resp (status : Nat) (ok : Bool) (text : String)
  | netErr (message : String)
deriving Repr, DecidableEq

/-- The `while (retries >= 0)` loop of `attemptIndexNowBatch`, starting
at `retries = 2`: a response with `ok`, 200 or 202 accepts the whole
batch (`{submitted: urls.length, errors: 0}`); a 5xx or 429 status and a
network error retry after a delay while `retries > 0` and otherwise give
up; any other status (400, 422, ...) stops immediately with
`{submitted: 0, errors: urls.length}`.  Returns
`(submitted, errors, calls issued)`. -/
def attemptIndexNowBatchLoop (env : Nat → FetchRes) (len : Nat) :
    Nat → Nat → Nat × Nat × Nat
  | call, retries =>
    match env call, retries with
    | .resp s ok _, retries =>
      if ok || s == 200 || s == 202 then (len, 0, call + 1)
      else if 500 ≤ s || s == 429 then
        match retries with
        | 0 => (0, len, call + 1)
        | retries' + 1 => attemptIndexNowBatchLoop env len (call + 1) retries'
      else (0, len, call + 1)
    | .netErr _, 0 => (0, len, call + 1)
    | .netErr _, retries' + 1 => attemptIndexNowBatchLoop env len (call + 1) retries'

/-- `attemptIndexNowBatch(host, key, urls, signal)` with its initial
`retries = 2`. -/
def attemptIndexNowBatch (env : Nat → FetchRes) (urls : List String) : Nat × Nat × Nat :=
  attemptIndexNowBatchLoop env urls.length 0 2

/-! ## URL store (`batchUpsertUrls`, `updateProjectStats`) -/

/-- A `ParsedUrl` emitted by the sitemap parse loop. -/
structure ParsedUrl where
  loc : String
  lastmod : Option String
  changefreq : Option String
  priority : Option String
deriving Repr, DecidableEq

/-- A row of the `urls` table, restricted to the columns the claims
touch.  `lastmod` and `priority` keep the source strings: `new Date(_)`
and `parseFloat(_)` are deterministic decodings of those strings, so
identifying a decoded value with its preimage loses nothing the claims
depend on.  `firstSeenAt` is the `defaultNow()` instant of the insert. -/
structure UrlRow where
  projectId : String
  sitemapId : Option String
  loc : String
  locHash : String
  lastmod : Option String
  changefreq : Option String
  priority : Option String
  googleStatus : String
  firstSeenAt : Nat
deriving Repr, DecidableEq

/-- The conflict target of the upsert: `(projectId, locHash)`. -/
def rowKey (r : UrlRow) : String × String := (r.projectId, r.locHash)

/-- One row of the `INSERT ... ON CONFLICT (project_id, loc_hash) DO
UPDATE SET sitemap_id, lastmod, changefreq, priority` statement.  `hash`
is the SHA-256 hex digest used for `locHash` (kept abstract: only its
determinism matters here).  On conflict only the four listed columns are
written; otherwise a fresh row is appended with the schema defaults
`googleStatus = DISCOVERED` and `firstSeenAt = now`. -/
def upsertUrl (hash : String → String) (now : Nat) (projectId sitemapId : String)
    (table : List UrlRow) (u : ParsedUrl) : List UrlRow :=
  let key := (projectId, hash u.loc)
  if table.any (fun r => rowKey r = key) then
    table.map (fun r =>
      if rowKey r = key then
        { r with sitemapId := some sitemapId, lastmod := u.lastmod,
                 changefreq := u.changefreq, priority := u.priority }
      else r)
  else
    table ++ [{ projectId := projectId, sitemapId := some sitemapId, loc := u.loc,
                locHash := hash u.loc, lastmod := u.lastmod, changefreq := u.changefreq,
                priority := u.priority, googleStatus := "DISCOVERED", firstSeenAt := now }]

/-- `batchUpsertUrls(projectId, sitemapId, parsedUrls, job)`: the rows
are written in batches of 500, each batch one upsert statement; row for
row this is the left fold of `upsertUrl` over the entries. -/
def batchUpsertUrls (hash : String → String) (now : Nat) (projectId sitemapId : String)
    (table : List UrlRow) (entries : List ParsedUrl) : List UrlRow :=
  entries.foldl (upsertUrl hash now projectId sitemapId) table

/-- The number of rows of `table` with conflict key `k`. -/
def countKey (table : List UrlRow) (k : String × String) : Nat :=
  (table.filter (fun r => rowKey r = k)).length

/-- The columns of a row the upsert's `DO UPDATE SET` clause never
touches. -/
def frozenPart (r : UrlRow) : String × String × String × String × Nat :=
  (r.projectId, r.locHash, r.loc, r.googleStatus, r.firstSeenAt)

/-- The cached counters written to the `projects` row. -/
structure ProjectCounters where
  totalUrls : Nat
  indexedUrls : Nat
  pendingUrls : Nat
  errorUrls : Nat
deriving Repr, DecidableEq

/-- `updateProjectStats(projectId)`: the aggregate of the SQL statement
`COUNT(*)`, `COUNT(*) FILTER (WHERE google_status = 'INDEXED')`,
`COUNT(*) FILTER (WHERE google_status IN ('DISCOVERED', 'QUEUED'))` and
`COUNT(*) FILTER (WHERE google_status IN ('ERROR_4XX', 'ERROR_5XX',
'CRAWL_ERROR'))` over the project's rows, written to the project's
cached counters. -/
def updateProjectStats (table : List UrlRow) (projectId : String) : ProjectCounters :=
  let rows := table.filter (fun r => r.projectId = projectId)
  { totalUrls := rows.length
    indexedUrls := (rows.filter (fun r => r.googleStatus = "INDEXED")).length
    pendingUrls :=
      (rows.filter (fun r => r.googleStatus = "DISCOVERED" ∨ r.googleStatus = "QUEUED")).length
    errorUrls :=
      (rows.filter (fun r => r.googleStatus = "ERROR_4XX" ∨ r.googleStatus = "ERROR_5XX" ∨
        r.googleStatus = "CRAWL_ERROR")).length }

/-- The number of the project's rows with one given `googleStatus`. -/
def countStatus (table : List UrlRow) (projectId status : String) : Nat :=
  (table.filter (fun r => r.projectId = projectId ∧ r.googleStatus = status)).length

/-- The `pending` bucket as §4.4 of the specification words it:
`DISCOVERED, QUEUED, SUBMITTED`.  Stated from the spec's words, to be
compared with `updateProjectStats`. -/
def specPendingCount (table : List UrlRow) (projectId : String) : Nat :=
  (table.filter (fun r => r.projectId = projectId ∧
    (r.googleStatus = "DISCOVERED" ∨ r.googleStatus = "QUEUED" ∨
      r.googleStatus = "SUBMITTED"))).length

/-! ## Scanner recursion (`sitemapScannerWorker`) and `SitemapStreamer` -/

/-- `CONFIG.MAX_RECURSION_DEPTH` of the scanner worker. -/
def MAX_RECURSION_DEPTH : Nat := 10

/-- The fetches of a scan run with `fuel = MAX_RECURSION_DEPTH - depth`
levels of child spawning left: the job fetches its url, and while fuel
remains it enqueues one child job per entry of the reference graph
`g url`. -/
def scanRunAux (g : String → List String) : Nat → String → List String
  | 0, url => [url]
  | fuel + 1, url => url :: ((g url).map (fun c => scanRunAux g fuel c)).flatten

/-- The multiset of sitemap URLs a scan run starting at `(url, depth)`
fetches: the job itself fetches `url`, and when `depth <
MAX_RECURSION_DEPTH` it enqueues one child job per entry of the
reference graph `g url` at `depth + 1` — so with
`MAX_RECURSION_DEPTH - depth` spawning levels left.  The worker keeps no
visited set; only the depth guard bounds the recursion. -/
def scanRun (g : String → List String) (url : String) (depth : Nat) : List String :=
  scanRunAux g (MAX_RECURSION_DEPTH - depth) url

/-- `SitemapStreamer.fetchSitemapRecursive` as a worklist traversal: a
URL already in `visitedSitemaps` is skipped; otherwise it is added to
the set, fetched, and its children are processed depth-first before the
rest of the worklist.  Returns the list of fetched URLs.  `fuel` only
makes the recursion structural; every run of the source exhausts its
worklist within `|reachable| + |worklist|` steps. -/
def streamFetch (g : String → List String) : Nat → List String → List String → List String
  | 0, _, _ => []
  | _, _, [] => []
  | fuel + 1, visited, url :: rest =>
    if url ∈ visited then streamFetch g fuel visited rest
    else url :: streamFetch g fuel (url :: visited) (g url ++ rest)

/-! ## The SAX sitemap parse loop (`fetchAndParseSitemap`) -/

/-- The events the `sax` stream delivers to the handlers. -/
inductive SaxEvent where
  | opentag (name : String)
  | text (s : String)
  | closetag (name : String)
deriving Repr, DecidableEq

/-- ASCII lowercasing of one character, as `toLowerCase` acts on the
tag names the parser sees. -/
def lowerChar (c : Char) : Char :=
  if 'A' ≤ c ∧ c ≤ 'Z' then Char.ofNat (c.toNat + 32) else c

/-- `String.prototype.toLowerCase` over the characters. -/
def toLowerStr (s : String) : String :=
  ⟨s.data.map lowerChar⟩

/-- An ASCII whitespace character. -/
def isSpaceChar (c : Char) : Bool :=
  c == ' ' || c == '\t' || c == '\n' || c == '\r'

/-- `String.prototype.trim` over the characters. -/
def trimStr (s : String) : String :=
  ⟨((s.data.dropWhile isSpaceChar).reverse.dropWhile isSpaceChar).reverse⟩

/-- The mutable captures of the parse loop. -/
structure SaxState where
  urls : List ParsedUrl
  childSitemaps : List String
  curLoc : Option String
  curLastmod : Option String
  curChangefreq : Option String
  curPriority : Option String
  currentTag : String
  isIndex : Bool
deriving Repr, DecidableEq

/-- The initial captures. -/
def saxInit : SaxState :=
  { urls := [], childSitemaps := [], curLoc := none, curLastmod := none,
    curChangefreq := none, curPriority := none, currentTag := "", isIndex := false }

/-- One event through the three handlers of `fetchAndParseSitemap`:
`opentag` lowercases into `currentTag` and raises `isIndex` on
`sitemapindex`; `text` trims and routes on `currentTag` (`loc` feeds
`childSitemaps` in index mode and the current url otherwise); `closetag`
pushes the current url on `</url>` when a `loc` was captured, and always
clears `currentTag`. -/
def saxStep (st : SaxState) : SaxEvent → SaxState
  | .opentag name =>
    let tag := toLowerStr name
    { st with currentTag := tag, isIndex := st.isIndex || tag == "sitemapindex" }
  | .text s =>
    let trimmed := trimStr s
    if trimmed = "" then st
    else if st.currentTag = "loc" then
      if st.isIndex then { st with childSitemaps := st.childSitemaps ++ [trimmed] }
      else { st with curLoc := some trimmed }
    else if st.currentTag = "lastmod" then { st with curLastmod := some trimmed }
    else if st.currentTag = "changefreq" then { st with curChangefreq := some trimmed }
    else if st.currentTag = "priority" then { st with curPriority := some trimmed }
    else st
  | .closetag name =>
    let st' :=
      match st.curLoc with
      | some loc =>
        if toLowerStr name = "url" then
          let u : ParsedUrl :=
            { loc := loc, lastmod := st.curLastmod,
              changefreq := st.curChangefreq, priority := st.curPriority }
          { st with urls := st.urls ++ [u], curLoc := none, curLastmod := none,
                    curChangefreq := none, curPriority := none }
        else st
      | none => st
    { st' with currentTag := "" }

/-- The value `fetchAndParseSitemap` resolves with. -/
structure SitemapParseResult where
  type : String
  urls : List ParsedUrl
  childSitemaps : List String
deriving Repr, DecidableEq

/-- `fetchAndParseSitemap` after the stream ended: fold the events and
read the captures; the type is `INDEX` iff a `<sitemapindex>` open tag
was seen and `URLSET` otherwise — the worker's parse loop recognizes no
other root kind. -/
def fetchAndParseSitemap (events : List SaxEvent) : SitemapParseResult :=
  let st := events.foldl saxStep saxInit
  { type := if st.isIndex then "INDEX" else "URLSET"
    urls := st.urls
    childSitemaps := st.childSitemaps }

/-! ## `SitemapStreamer` root detection (DOM branch of
`fetchSitemapRecursive`) -/

/-- The DOM queries the streamer makes against the parsed document:
whether a `sitemapindex`, `urlset`, or `rss`/`feed` element exists, and
the matched node lists.  Feed links carry `(textContent, href)`. -/
structure XmlDoc where
  hasSitemapIndex : Bool
  hasUrlSet : Bool
  hasRssOrFeed : Bool
  childSitemapLocs : List (Option String)
  urlsetLocs : List (Option String)
  feedLinks : List (Option String × Option String)
deriving Repr, DecidableEq

/-- JavaScript `a || b` over nullable strings: the empty string is
falsy. -/
def jsOrElse (a b : Option String) : Option String :=
  match a with
  | some s => if s = "" then b else some s
  | none => b

/-- Truthiness filter: keep only non-null, non-empty strings. -/
def truthy (o : Option String) : Option String :=
  match o with
  | some s => if s = "" then none else some s
  | none => none

/-- The branch the streamer takes and what it extracts. -/
inductive StreamerParse where
  | indexChildren (children : List String)
  | urlsetUrls (locs : List String)
  | rssLinks (links : List String)
  | nothing
deriving Repr, DecidableEq

/-- The `if (sitemapIndex) ... else if (urlSet) ... else if (rss)`
discovery of `fetchSitemapRecursive`: index children are the trimmed
`sitemap > loc` texts, urlset locs the trimmed `url loc` texts, and
feed links `item > link, entry > link` text (trimmed) falling back to
the `href` attribute; empty captures are dropped. -/
def streamerDiscover (doc : XmlDoc) : StreamerParse :=
  if doc.hasSitemapIndex then
    .indexChildren (doc.childSitemapLocs.filterMap (fun t => truthy (t.map trimStr)))
  else if doc.hasUrlSet then
    .urlsetUrls (doc.urlsetLocs.filterMap (fun t => truthy (t.map trimStr)))
  else if doc.hasRssOrFeed then
    .rssLinks (doc.feedLinks.filterMap (fun p => truthy (jsOrElse (p.1.map trimStr) p.2)))
  else .nothing

/-! ## WebSocket event bus (`broadcastToProject`, `subscribeToRedis`) -/

/-- A WebSocket connection registered in the per-key `connections`
set. -/
structure WsConn where
  connId : Nat
  readyState : Nat
deriving Repr, DecidableEq

/-- `WebSocket.OPEN`. -/
def WS_OPEN : Nat := 1

/-- `broadcastToProject(organizationId, projectId, message)`: with no
registered connections for the key the function returns at once;
otherwise the serialized message is sent to every connection in the
`OPEN` state and then published on the `ws:<key>` Redis channel.
Returns the direct deliveries and whether a publish happened. -/
def broadcastToProject (conns : List WsConn) (msg : String) :
    List (WsConn × String) × Bool :=
  if conns.isEmpty then ([], false)
  else ((conns.filter (fun c => c.readyState = WS_OPEN)).map (fun c => (c, msg)), true)

/-- The `pSubscribe('ws:*')` handler of `subscribeToRedis`: deliver the
received payload to every `OPEN` connection of the channel's key; the
handler does not exclude messages the same instance published. -/
def redisReceive (conns : List WsConn) (msg : String) : List (WsConn × String) :=
  (conns.filter (fun c => c.readyState = WS_OPEN)).map (fun c => (c, msg))

/-- All deliveries one broadcast causes on its own instance when the
broker echoes the publish back to the publisher's subscription: the
direct sends of `broadcastToProject` followed by the `redisReceive`
sends for the echoed message. -/
def deliveriesWithEcho (conns : List WsConn) (msg : String) : List (WsConn × String) :=
  (broadcastToProject conns msg).1 ++
    (if (broadcastToProject conns msg).2 then redisReceive conns msg else [])

/-! ## Helper lemmas -/

/-- Filtering a table with pairwise-distinct keys down to the rows whose
key occurs in `ids` keeps at most `ids.length` rows. -/
theorem length_filter_contains_le {β : Type} (db : List (String × β)) (ids : List String)
    (hdb : (db.map Prod.fst).Nodup) :
    (db.filter (fun r => ids.contains r.1)).length ≤ ids.length := by
  have hsub : List.Sublist (db.filter (fun r => ids.contains r.1)) db :=
    List.filter_sublist db
  have hnd : ((db.filter (fun r => ids.contains r.1)).map Prod.fst).Nodup :=
    hdb.sublist (hsub.map Prod.fst)
  have hss : (db.filter (fun r => ids.contains r.1)).map Prod.fst ⊆ ids := by
    intro a ha
    rcases List.mem_map.1 ha with ⟨r, hr, rfl⟩
    have hmem := List.of_mem_filter hr
    simpa using hmem
  calc (db.filter (fun r => ids.contains r.1)).length
      = ((db.filter (fun r => ids.contains r.1)).map Prod.fst).length := by simp
    _ ≤ ids.length := (hnd.subperm hss).length_le

/-! ## Claim theorems -/

/-- Claim C1: before any URL is submitted the Google worker computes
`remainingQuota = DAILY_QUOTA - used`; when it is not positive the job
fails with the quota-exhausted error and no URL is submitted, and
otherwise the url ids are truncated to at most `remainingQuota`
entries, so after a completed job `used` never exceeds the daily quota
of 200. -/
theorem google_quota_bound (env : String → Nat → GResp) (db : List (String × String))
    (used : Nat) (urlIds : List String)
    (hdb : (db.map Prod.fst).Nodup) :
    ((DAILY_QUOTA : Int) - (used : Int) ≤ 0 →
      googleSubmitterJob env db used urlIds =
        .error "Daily Google Indexing API quota exhausted") ∧
    (∀ out, googleSubmitterJob env db used urlIds = .ok out →
      out.urlsToSubmit = urlIds.take ((DAILY_QUOTA : Int) - (used : Int)).toNat ∧
      out.newUsed = used + out.successCount ∧
      out.successCount ≤ ((DAILY_QUOTA : Int) - (used : Int)).toNat ∧
      out.newUsed ≤ DAILY_QUOTA) := by
  constructor
  · intro h
    have hN : DAILY_QUOTA ≤ used := by simp only [DAILY_QUOTA] at *; omega
    simp [googleSubmitterJob, hN]
  · intro out hout
    by_cases h : (DAILY_QUOTA : Int) - (used : Int) ≤ 0
    · have hN : DAILY_QUOTA ≤ used := by simp only [DAILY_QUOTA] at *; omega
      simp [googleSubmitterJob, hN] at hout
    · simp only [googleSubmitterJob, Except.ok.injEq] at hout
      rw [if_neg h] at hout
      injection hout with hout
      subst hout
      have h1 : ((db.filter (fun r =>
          (urlIds.take ((DAILY_QUOTA : Int) - (used : Int)).toNat).contains r.1)).map
            (fun r => (submitSingleUrl env r).1)).length ≤
          (urlIds.take ((DAILY_QUOTA : Int) - (used : Int)).toNat).length := by
        rw [List.length_map]
        exact length_filter_contains_le db _ hdb
      have h2 : (urlIds.take ((DAILY_QUOTA : Int) - (used : Int)).toNat).length ≤
          ((DAILY_QUOTA : Int) - (used : Int)).toNat := by
        simp [List.length_take]
      refine ⟨rfl, rfl, ?_, ?_⟩
      · exact le_trans (le_trans (List.length_filter_le _ _) h1) h2
      · have h3 := le_trans (le_trans (List.length_filter_le
          (fun r => r.success) _) h1) h2
        simp only [DAILY_QUOTA] at *
        omega

/-- S3 environment: every request succeeds with 200. -/
def envAllOk : String → Nat → GResp := fun _ _ => .ok 200

/-- S3 urls table: five rows. -/
def dbS3 : List (String × String) :=
  [("u1", "http://t/1"), ("u2", "http://t/2"), ("u3", "http://t/3"),
   ("u4", "http://t/4"), ("u5", "http://t/5")]

/-- S3 payload: five url ids. -/
def idsS3 : List String := ["u1", "u2", "u3", "u4", "u5"]

/-- Witness for C1, scenario S3: with `used = 198` and five incoming
ids, exactly two URLs are submitted, both succeed, `used` becomes 200
and the job completes rather than fails. -/
theorem google_quota_bound_witness :
    (dbS3.map Prod.fst).Nodup ∧
    googleSubmitterJob envAllOk dbS3 198 idsS3 =
      .ok { urlsToSubmit := ["u1", "u2"],
            results := [⟨"u1", true, some 200, none⟩, ⟨"u2", true, some 200, none⟩],
            successCount := 2, failCount := 0, newUsed := 200,
            requestLog := [("u1", .ok 200), ("u2", .ok 200)] } ∧
    (∀ out, googleSubmitterJob envAllOk dbS3 198 idsS3 = .ok out →
      out.newUsed = 198 + out.successCount ∧ out.newUsed ≤ DAILY_QUOTA) :=
  ⟨by decide, by rfl, fun out h =>
    ⟨((google_quota_bound envAllOk dbS3 198 idsS3 (by decide)).2 out h).2.1,
     ((google_quota_bound envAllOk dbS3 198 idsS3 (by decide)).2 out h).2.2.2⟩⟩

/-- Each retry traversal answers at most `fuel + 1` requests. -/
theorem attemptResponses_length_le (env : Nat → GResp) (attempt fuel : Nat) :
    (attemptResponses env attempt fuel).length ≤ fuel + 1 := by
  induction fuel generalizing attempt with
  | zero =>
    unfold attemptResponses
    cases henv : env attempt <;> simp [henv]
  | succ n ih =>
    unfold attemptResponses
    cases henv : env attempt with
    | ok s => simp [henv]
    | err s m =>
      simp only [henv, List.length_cons]
      have := ih (attempt + 1)
      omega

/-- Environment where the first URL always answers a fatal `Fatal-PerJob`
response (403 mentioning ownership) and every other URL succeeds. -/
def envC2 : String → Nat → GResp := fun id _ =>
  if id = "u1" then .err 403 "Permission denied: ownership" else .ok 200

/-- Two url rows for the fatal-response scenario. -/
def dbC2 : List (String × String) := [("u1", "http://t/1"), ("u2", "http://t/2")]

/-- Counterexample to C2: the first response of the job is a
`Fatal-PerJob` 403 mentioning ownership, yet the worker issues four more
requests (three retries of the same URL and one for the next URL) and
the handler returns normally with per-URL counts instead of failing the
job: the request log has five entries, not one, and the job is `.ok`. -/
theorem google_fatal_short_circuit_cex :
    googleSubmitterJob envC2 dbC2 0 ["u1", "u2"] =
      .ok { urlsToSubmit := ["u1", "u2"],
            results := [⟨"u1", false, some 403, some "Permission denied: ownership"⟩,
                        ⟨"u2", true, some 200, none⟩],
            successCount := 1, failCount := 1, newUsed := 1,
            requestLog :=
              [("u1", .err 403 "Permission denied: ownership"),
               ("u1", .err 403 "Permission denied: ownership"),
               ("u1", .err 403 "Permission denied: ownership"),
               ("u1", .err 403 "Permission denied: ownership"),
               ("u2", .ok 200)] } ∧
    isFatalPerJob (.err 403 "Permission denied: ownership") = true ∧
    (5 : Nat) ≠ 1 :=
  ⟨by rfl, by decide, by decide⟩

/-- Claim C2 (amended): the worker never short-circuits on a
`Fatal-PerJob` response: a 403 or 429 error is retried up to
`MAX_RETRIES` further times for the same URL and then recorded as a
per-URL failure, the worker continues with every remaining fetched URL
(one result per record, at most `MAX_RETRIES + 1` requests each), and
the handler returns normally whenever the quota gate passed. -/
theorem google_continues_after_fatal (env : String → Nat → GResp)
    (db : List (String × String)) (used : Nat) (urlIds : List String)
    (h : ¬ ((DAILY_QUOTA : Int) - (used : Int) ≤ 0)) :
    (∃ out, googleSubmitterJob env db used urlIds = .ok out) ∧
    (∀ out, googleSubmitterJob env db used urlIds = .ok out →
      out.results.length =
        (db.filter (fun r =>
          (urlIds.take ((DAILY_QUOTA : Int) - (used : Int)).toNat).contains r.1)).length ∧
      out.requestLog.length ≤ (MAX_RETRIES + 1) * out.results.length) := by
  constructor
  · simp only [googleSubmitterJob]
    rw [if_neg h]
    exact ⟨_, rfl⟩
  · intro out hout
    simp only [googleSubmitterJob, Except.ok.injEq] at hout
    rw [if_neg h] at hout
    injection hout with hout
    subst hout
    constructor
    · simp [List.length_map]
    · simp only [List.length_flatten, List.length_map, List.map_map]
      refine le_trans (List.sum_le_card_nsmul _ (MAX_RETRIES + 1) ?_) ?_
      · intro n hn
        rcases List.mem_map.1 hn with ⟨r, _, rfl⟩
        simpa using attemptResponses_length_le (env r.1) 0 MAX_RETRIES
      · apply le_of_eq
        simp [List.length_map, smul_eq_mul, Nat.mul_comm]

/-- Witness for the amended C2 on the fatal-response scenario. -/
theorem google_continues_after_fatal_witness :
    ¬ ((DAILY_QUOTA : Int) - ((0 : Nat) : Int) ≤ 0) ∧
    ((∃ out, googleSubmitterJob envC2 dbC2 0 ["u1", "u2"] = .ok out) ∧
      (∀ out, googleSubmitterJob envC2 dbC2 0 ["u1", "u2"] = .ok out →
        out.results.length =
          (dbC2.filter (fun r =>
            (["u1", "u2"].take ((DAILY_QUOTA : Int) - ((0 : Nat) : Int)).toNat).contains
              r.1)).length ∧
        out.requestLog.length ≤ (MAX_RETRIES + 1) * out.results.length)) :=
  ⟨by decide, google_continues_after_fatal envC2 dbC2 0 ["u1", "u2"] (by decide)⟩

/-- Environment where every IndexNow engine call answers HTTP 500. -/
def envINFail : String → Nat → INResp := fun _ _ => .resp 500

/-- Two url rows shared by the quota scenarios. -/
def dbIN : List (String × String) := [("u1", "http://t/1"), ("u2", "http://t/2")]

/-- Counterexample to C3: an IndexNow job on two url ids in which every
engine call fails produces zero successful submissions (every
`Submission` row is `FAILED`), yet the quota upsert adds
`urlIds.length = 2`, not 0. -/
theorem quota_delta_indexnow_cex :
    indexNowSubmitterJob envINFail dbIN 0 ["u1", "u2"] =
      { urlRecords := [("u1", "http://t/1"), ("u2", "http://t/2")],
        successfulEngines := [],
        failedEngines := ["bing", "yandex", "seznam", "naver"],
        submissionStatuses := [("u1", "FAILED"), ("u2", "FAILED")],
        quotaDelta := 2, newUsed := 2 } ∧
    ((indexNowSubmitterJob envINFail dbIN 0 ["u1", "u2"]).submissionStatuses.filter
      (fun p => p.2 = "COMPLETED")).length = 0 ∧
    (2 : Nat) ≠ 0 :=
  ⟨by rfl, by decide, by decide⟩

/-- Claim C3 (amended): both workers mutate the quota row only through
the atomic upsert `used = used + delta`, so `used` never decreases and
sequenced jobs add the sum of their deltas; but the delta is the number
of successful submissions only for the Google worker — the IndexNow
worker adds `urlIds.length` regardless of engine outcomes. -/
theorem quota_upsert_delta (env : String → Nat → GResp)
    (envIN : String → Nat → INResp) (db : List (String × String))
    (used : Nat) (urlIds : List String) :
    (∀ out, googleSubmitterJob env db used urlIds = .ok out →
      out.newUsed = used + out.successCount ∧ used ≤ out.newUsed) ∧
    ((indexNowSubmitterJob envIN db used urlIds).newUsed = used + urlIds.length ∧
      used ≤ (indexNowSubmitterJob envIN db used urlIds).newUsed) ∧
    (∀ (init : Nat) (deltas : List Nat),
      deltas.foldl (fun acc d => acc + d) init = init + deltas.sum) := by
  refine ⟨?_, ⟨rfl, Nat.le_add_right _ _⟩, ?_⟩
  · intro out hout
    by_cases h : (DAILY_QUOTA : Int) - (used : Int) ≤ 0
    · have hN : DAILY_QUOTA ≤ used := by simp only [DAILY_QUOTA] at *; omega
      simp [googleSubmitterJob, hN] at hout
    · simp only [googleSubmitterJob, Except.ok.injEq] at hout
      rw [if_neg h] at hout
      injection hout with hout
      subst hout
      exact ⟨rfl, Nat.le_add_right _ _⟩
  · intro init deltas
    induction deltas generalizing init with
    | nil => simp
    | cons d ds ih => simp [List.foldl_cons, List.sum_cons, ih]; omega

/-- Witness for the amended C3 at concrete inputs: the Google job adds
its success count (2 of 2 succeed starting from `used = 5`), the
IndexNow job with every engine failing still adds `urlIds.length = 2`,
and folded increments add up. -/
theorem quota_upsert_delta_witness :
    googleSubmitterJob envAllOk dbIN 5 ["u1", "u2"] =
      .ok { urlsToSubmit := ["u1", "u2"],
            results := [⟨"u1", true, some 200, none⟩, ⟨"u2", true, some 200, none⟩],
            successCount := 2, failCount := 0, newUsed := 7,
            requestLog := [("u1", .ok 200), ("u2", .ok 200)] } ∧
    (∀ out, googleSubmitterJob envAllOk dbIN 5 ["u1", "u2"] = .ok out →
      out.newUsed = 5 + out.successCount) ∧
    (indexNowSubmitterJob envINFail dbIN 5 ["u1", "u2"]).newUsed = 5 + 2 ∧
    [3, 4].foldl (fun acc d => acc + d) 10 = 10 + 7 :=
  ⟨by rfl,
   fun out h => ((quota_upsert_delta envAllOk envINFail dbIN 5 ["u1", "u2"]).1 out h).1,
   (quota_upsert_delta envAllOk envINFail dbIN 5 ["u1", "u2"]).2.1.1,
   (quota_upsert_delta envAllOk envINFail dbIN 5 ["u1", "u2"]).2.2 10 [3, 4]⟩

/-! ### Lemmas about the URL upsert -/

/-- The conflict key of an entry. -/
def entryKey (hash : String → String) (pid : String) (u : ParsedUrl) : String × String :=
  (pid, hash u.loc)

/-- The `DO UPDATE SET` clause leaves the conflict key unchanged. -/
theorem rowKey_update (sid : String) (lm cf pr : Option String) (r : UrlRow) :
    rowKey { r with sitemapId := some sid, lastmod := lm, changefreq := cf,
                    priority := pr } = rowKey r := rfl

/-- The `DO UPDATE SET` clause leaves the untouched columns unchanged. -/
theorem frozenPart_update (sid : String) (lm cf pr : Option String) (r : UrlRow) :
    frozenPart { r with sitemapId := some sid, lastmod := lm, changefreq := cf,
                        priority := pr } = frozenPart r := rfl

theorem countKey_append (T₁ T₂ : List UrlRow) (k : String × String) :
    countKey (T₁ ++ T₂) k = countKey T₁ k + countKey T₂ k := by
  simp [countKey, List.filter_append]

/-- Updating the conflicting rows in place keeps every key count. -/
theorem countKey_map_update (sid : String) (u : ParsedUrl) (key : String × String)
    (T : List UrlRow) (k : String × String) :
    countKey (T.map (fun r =>
      if rowKey r = key then
        { r with sitemapId := some sid, lastmod := u.lastmod,
                 changefreq := u.changefreq, priority := u.priority }
      else r)) k = countKey T k := by
  induction T with
  | nil => rfl
  | cons r T ih =>
    by_cases hr : rowKey r = key <;>
      simp [countKey, List.filter_cons, hr, rowKey_update] at ih ⊢ <;>
      split <;> simp_all [countKey]

/-- The fresh row appended when no conflict exists. -/
def freshRow (hash : String → String) (now : Nat) (pid sid : String) (u : ParsedUrl) :
    UrlRow :=
  { projectId := pid, sitemapId := some sid, loc := u.loc, locHash := hash u.loc,
    lastmod := u.lastmod, changefreq := u.changefreq, priority := u.priority,
    googleStatus := "DISCOVERED", firstSeenAt := now }

/-- `upsertUrl` rewritten through `freshRow` (definitional). -/
theorem upsertUrl_eq (hash : String → String) (now : Nat) (pid sid : String)
    (T : List UrlRow) (u : ParsedUrl) :
    upsertUrl hash now pid sid T u =
      if T.any (fun r => rowKey r = (pid, hash u.loc)) then
        T.map (fun r =>
          if rowKey r = (pid, hash u.loc) then
            { r with sitemapId := some sid, lastmod := u.lastmod,
                     changefreq := u.changefreq, priority := u.priority }
          else r)
      else T ++ [freshRow hash now pid sid u] := rfl

theorem countKey_singleton_fresh (hash : String → String) (now : Nat) (pid sid : String)
    (u : ParsedUrl) (k : String × String) :
    countKey [freshRow hash now pid sid u] k =
      if entryKey hash pid u = k then 1 else 0 := by
  by_cases hk : entryKey hash pid u = k <;>
    simp only [entryKey] at hk <;>
    simp [countKey, freshRow, rowKey, List.filter_cons, hk, entryKey]

/-- How one upsert moves a key count: the entry's own key count becomes
at least one, every other key count is untouched. -/
theorem countKey_upsertUrl (hash : String → String) (now : Nat) (pid sid : String)
    (T : List UrlRow) (u : ParsedUrl) (k : String × String) :
    countKey (upsertUrl hash now pid sid T u) k =
      if entryKey hash pid u = k then max 1 (countKey T k) else countKey T k := by
  rw [upsertUrl_eq]
  by_cases hany : T.any (fun r => rowKey r = (pid, hash u.loc)) = true
  · have hpos : 1 ≤ countKey T (pid, hash u.loc) := by
      rcases List.any_eq_true.1 hany with ⟨r, hr, hk⟩
      simp only [decide_eq_true_eq] at hk
      have hmem : r ∈ T.filter (fun r => rowKey r = (pid, hash u.loc)) := by
        simp only [List.mem_filter, decide_eq_true_eq]
        exact ⟨hr, hk⟩
      simpa [countKey] using List.length_pos_of_mem hmem
    rw [if_pos hany, countKey_map_update]
    by_cases hk : entryKey hash pid u = k
    · rw [if_pos hk]
      simp only [entryKey] at hk
      subst hk
      omega
    · rw [if_neg hk]
  · have hzero : countKey T (pid, hash u.loc) = 0 := by
      rw [countKey, List.length_eq_zero, List.filter_eq_nil_iff]
      intro r hr
      simp only [decide_eq_true_eq]
      intro hk
      exact hany (List.any_eq_true.2 ⟨r, hr, by simpa using hk⟩)
    rw [if_neg hany, countKey_append, countKey_singleton_fresh]
    by_cases hk : entryKey hash pid u = k
    · rw [if_pos hk, if_pos hk]
      simp only [entryKey] at hk
      subst hk
      omega
    · rw [if_neg hk, if_neg hk]
      omega

/-- The table already stores, for the key of `u`, exactly what upserting
`u` would write. -/
def Reflects (hash : String → String) (pid sid : String) (T : List UrlRow)
    (u : ParsedUrl) : Prop :=
  (∃ r ∈ T, rowKey r = entryKey hash pid u) ∧
  ∀ r ∈ T, rowKey r = entryKey hash pid u →
    r.sitemapId = some sid ∧ r.lastmod = u.lastmod ∧
    r.changefreq = u.changefreq ∧ r.priority = u.priority

/-- Upserting an entry the table already reflects is the identity. -/
theorem upsertUrl_of_reflects (hash : String → String) (now : Nat) (pid sid : String)
    (T : List UrlRow) (u : ParsedUrl) (h : Reflects hash pid sid T u) :
    upsertUrl hash now pid sid T u = T := by
  rw [upsertUrl_eq]
  have hany : T.any (fun r => rowKey r = (pid, hash u.loc)) = true := by
    rcases h.1 with ⟨r, hr, hk⟩
    exact List.any_eq_true.2 ⟨r, hr, by simpa [entryKey] using hk⟩
  rw [if_pos hany]
  have hid : ∀ r ∈ T,
      (if rowKey r = (pid, hash u.loc) then
        { r with sitemapId := some sid, lastmod := u.lastmod,
                 changefreq := u.changefreq, priority := u.priority }
      else r) = r := by
    intro r hr
    by_cases hk : rowKey r = (pid, hash u.loc)
    · rw [if_pos hk]
      obtain ⟨h1, h2, h3, h4⟩ := h.2 r hr (by simpa [entryKey] using hk)
      cases r
      simp_all
    · rw [if_neg hk]
  calc T.map _ = T.map id := List.map_congr_left hid
    _ = T := List.map_id T

/-- After upserting `u` the table reflects `u`. -/
theorem reflects_upsertUrl_self (hash : String → String) (now : Nat) (pid sid : String)
    (T : List UrlRow) (u : ParsedUrl) :
    Reflects hash pid sid (upsertUrl hash now pid sid T u) u := by
  rw [upsertUrl_eq]
  by_cases hany : T.any (fun r => rowKey r = (pid, hash u.loc)) = true
  · rw [if_pos hany]
    rcases List.any_eq_true.1 hany with ⟨r, hr, hk⟩
    simp only [decide_eq_true_eq] at hk
    constructor
    · refine ⟨_, List.mem_map.2 ⟨r, hr, rfl⟩, ?_⟩
      rw [if_pos hk, rowKey_update, hk]
      rfl
    · intro r' hr' hk'
      rcases List.mem_map.1 hr' with ⟨r0, hr0, rfl⟩
      by_cases hk0 : rowKey r0 = (pid, hash u.loc)
      · rw [if_pos hk0]
        exact ⟨rfl, rfl, rfl, rfl⟩
      · rw [if_neg hk0] at hk' ⊢
        exact absurd (by simpa [entryKey] using hk') hk0
  · rw [if_neg hany]
    constructor
    · exact ⟨freshRow hash now pid sid u, by simp, by simp [freshRow, rowKey, entryKey]⟩
    · intro r hr hk
      rcases List.mem_append.1 hr with hrT | hrF
      · exfalso
        exact hany (List.any_eq_true.2 ⟨r, hrT, by simpa [entryKey] using hk⟩)
      · have : r = freshRow hash now pid sid u := by simpa using hrF
        subst this
        exact ⟨rfl, rfl, rfl, rfl⟩

/-- Upserting an entry with a different key preserves reflection. -/
theorem reflects_upsertUrl_other (hash : String → String) (now : Nat) (pid sid : String)
    (T : List UrlRow) (u v : ParsedUrl)
    (hne : entryKey hash pid v ≠ entryKey hash pid u)
    (h : Reflects hash pid sid T u) :
    Reflects hash pid sid (upsertUrl hash now pid sid T v) u := by
  rw [upsertUrl_eq]
  by_cases hany : T.any (fun r => rowKey r = (pid, hash v.loc)) = true
  · rw [if_pos hany]
    constructor
    · rcases h.1 with ⟨r, hr, hk⟩
      have hkv : rowKey r ≠ (pid, hash v.loc) := by
        rw [hk]
        simpa [entryKey] using fun hcontra => hne (by simpa [entryKey] using hcontra.symm)
      exact ⟨r, List.mem_map.2 ⟨r, hr, by rw [if_neg hkv]⟩, hk⟩
    · intro r' hr' hk'
      rcases List.mem_map.1 hr' with ⟨r0, hr0, rfl⟩
      by_cases hk0 : rowKey r0 = (pid, hash v.loc)
      · rw [if_pos hk0] at hk'
        rw [rowKey_update, hk0] at hk'
        exact absurd hk' (by simpa [entryKey] using hne)
      · rw [if_neg hk0] at hk' ⊢
        exact h.2 r0 hr0 hk'
  · rw [if_neg hany]
    constructor
    · rcases h.1 with ⟨r, hr, hk⟩
      exact ⟨r, List.mem_append_left _ hr, hk⟩
    · intro r hr hk
      rcases List.mem_append.1 hr with hrT | hrF
      · exact h.2 r hrT hk
      · exfalso
        have : r = freshRow hash now pid sid v := by simpa using hrF
        subst this
        exact hne (by simpa [freshRow, rowKey, entryKey] using hk)

/-- A batch of entries whose keys all differ from the key of `u`
preserves reflection of `u`. -/
theorem reflects_batch_other (hash : String → String) (now : Nat) (pid sid : String)
    (T : List UrlRow) (u : ParsedUrl) (es : List ParsedUrl)
    (hne : ∀ v ∈ es, entryKey hash pid v ≠ entryKey hash pid u)
    (h : Reflects hash pid sid T u) :
    Reflects hash pid sid (batchUpsertUrls hash now pid sid T es) u := by
  induction es generalizing T with
  | nil => exact h
  | cons v es ih =>
    exact ih _ (fun w hw => hne w (List.mem_cons_of_mem _ hw))
      (reflects_upsertUrl_other hash now pid sid T u v (hne v (List.mem_cons_self _ _)) h)

/-- After one batch run over entries with pairwise-distinct hashes, the
table reflects every entry of the batch. -/
theorem reflects_batch_all (hash : String → String) (now : Nat) (pid sid : String)
    (T : List UrlRow) (es : List ParsedUrl)
    (hE : (es.map (fun u => hash u.loc)).Nodup) :
    ∀ u ∈ es, Reflects hash pid sid (batchUpsertUrls hash now pid sid T es) u := by
  induction es generalizing T with
  | nil => intro u hu; cases hu
  | cons v es ih =>
    intro u hu
    simp only [List.map_cons, List.nodup_cons] at hE
    rcases List.mem_cons.1 hu with rfl | hu'
    · refine reflects_batch_other hash now pid sid _ u es ?_
        (reflects_upsertUrl_self hash now pid sid T u)
      intro w hw
      have hwn : hash w.loc ≠ hash u.loc := by
        intro hcontra
        exact hE.1 (hcontra ▸ List.mem_map_of_mem (fun x => hash x.loc) hw)
      simp [entryKey, Prod.ext_iff, hwn]
    · exact ih _ hE.2 u hu'

/-- A batch of entries the table already reflects is the identity. -/
theorem batch_id_of_reflects (hash : String → String) (now : Nat) (pid sid : String)
    (T : List UrlRow) (es : List ParsedUrl)
    (h : ∀ u ∈ es, Reflects hash pid sid T u) :
    batchUpsertUrls hash now pid sid T es = T := by
  induction es with
  | nil => rfl
  | cons v es ih =>
    have heq : upsertUrl hash now pid sid T v = T :=
      upsertUrl_of_reflects hash now pid sid T v (h v (List.mem_cons_self _ _))
    calc batchUpsertUrls hash now pid sid T (v :: es)
        = batchUpsertUrls hash now pid sid (upsertUrl hash now pid sid T v) es := rfl
      _ = batchUpsertUrls hash now pid sid T es := by rw [heq]
      _ = T := ih (fun u hu => h u (List.mem_cons_of_mem _ hu))

/-- One batch run keeps all key counts at most one. -/
theorem countKey_batch_le_one (hash : String → String) (now : Nat) (pid sid : String)
    (T : List UrlRow) (es : List ParsedUrl) (hT : ∀ k, countKey T k ≤ 1) :
    ∀ k, countKey (batchUpsertUrls hash now pid sid T es) k ≤ 1 := by
  induction es generalizing T with
  | nil => exact hT
  | cons v es ih =>
    refine ih _ (fun k => ?_)
    rw [countKey_upsertUrl]
    have := hT k
    split <;> omega

/-- A batch run never lowers a key count. -/
theorem countKey_batch_ge (hash : String → String) (now : Nat) (pid sid : String)
    (T : List UrlRow) (es : List ParsedUrl) :
    ∀ k, countKey T k ≤ countKey (batchUpsertUrls hash now pid sid T es) k := by
  induction es generalizing T with
  | nil => exact fun k => le_refl _
  | cons v es ih =>
    intro k
    refine le_trans ?_ (ih _ k)
    rw [countKey_upsertUrl]
    split <;> omega

/-- After a batch run the key of every entry of the batch is present. -/
theorem countKey_batch_mem (hash : String → String) (now : Nat) (pid sid : String)
    (T : List UrlRow) (es : List ParsedUrl) (u : ParsedUrl) (hu : u ∈ es) :
    1 ≤ countKey (batchUpsertUrls hash now pid sid T es) (entryKey hash pid u) := by
  induction es generalizing T with
  | nil => cases hu
  | cons v es ih =>
    rcases List.mem_cons.1 hu with rfl | hu'
    · refine le_trans ?_ (countKey_batch_ge hash now pid sid _ es (entryKey hash pid u))
      rw [countKey_upsertUrl, if_pos rfl]
      omega
    · exact ih _ hu'

/-- One upsert leaves the frozen columns of every pre-existing row
unchanged. -/
theorem frozen_upsertUrl (hash : String → String) (now : Nat) (pid sid : String)
    (T : List UrlRow) (u : ParsedUrl) (i : Nat) (hi : i < T.length) :
    ((upsertUrl hash now pid sid T u)[i]?).map frozenPart = (T[i]?).map frozenPart := by
  rw [upsertUrl_eq]
  split
  · rw [List.getElem?_map]
    cases h : T[i]? with
    | none => rfl
    | some r =>
      simp only [Option.map_some']
      congr 1
      by_cases hk : rowKey r = (pid, hash u.loc)
      · rw [if_pos hk, frozenPart_update]
      · rw [if_neg hk]
  · rw [List.getElem?_append_left hi]

/-- An upsert never shrinks the table. -/
theorem length_le_upsertUrl (hash : String → String) (now : Nat) (pid sid : String)
    (T : List UrlRow) (u : ParsedUrl) :
    T.length ≤ (upsertUrl hash now pid sid T u).length := by
  rw [upsertUrl_eq]
  split <;> simp

/-- A whole batch run leaves the frozen columns of every pre-existing
row unchanged. -/
theorem frozen_batch (hash : String → String) (now : Nat) (pid sid : String)
    (T : List UrlRow) (es : List ParsedUrl) (i : Nat) (hi : i < T.length) :
    ((batchUpsertUrls hash now pid sid T es)[i]?).map frozenPart =
      (T[i]?).map frozenPart := by
  induction es generalizing T with
  | nil => rfl
  | cons v es ih =>
    calc ((batchUpsertUrls hash now pid sid (upsertUrl hash now pid sid T v) es)[i]?).map
          frozenPart
        = ((upsertUrl hash now pid sid T v)[i]?).map frozenPart :=
          ih _ (lt_of_lt_of_le hi (length_le_upsertUrl hash now pid sid T v))
      _ = (T[i]?).map frozenPart := frozen_upsertUrl hash now pid sid T v i hi

/-- Claim C4: running the batch upsert twice with the same entries
leaves exactly one row per `(projectId, SHA-256(loc))` key; the second
run is the identity on the table — so `firstSeenAt` keeps the value set
by the first insertion — and any run can change only the `sitemapId`,
`lastmod`, `changefreq` and `priority` columns of a pre-existing row. -/
theorem batch_upsert_idempotent (hash : String → String) (now now2 : Nat)
    (pid sid : String) (T : List UrlRow) (entries : List ParsedUrl)
    (hT : ∀ k, countKey T k ≤ 1)
    (hE : (entries.map (fun u => hash u.loc)).Nodup) :
    batchUpsertUrls hash now2 pid sid (batchUpsertUrls hash now pid sid T entries) entries
      = batchUpsertUrls hash now pid sid T entries ∧
    (∀ u ∈ entries,
      countKey (batchUpsertUrls hash now2 pid sid
        (batchUpsertUrls hash now pid sid T entries) entries) (entryKey hash pid u) = 1) ∧
    (∀ k,
      countKey (batchUpsertUrls hash now2 pid sid
        (batchUpsertUrls hash now pid sid T entries) entries) k ≤ 1) ∧
    (∀ i, i < T.length →
      ((batchUpsertUrls hash now pid sid T entries)[i]?).map frozenPart =
        (T[i]?).map frozenPart) := by
  have h2 : batchUpsertUrls hash now2 pid sid
      (batchUpsertUrls hash now pid sid T entries) entries =
      batchUpsertUrls hash now pid sid T entries :=
    batch_id_of_reflects hash now2 pid sid _ entries
      (reflects_batch_all hash now pid sid T entries hE)
  refine ⟨h2, ?_, ?_, ?_⟩
  · intro u hu
    rw [h2]
    have hle := countKey_batch_le_one hash now pid sid T entries hT (entryKey hash pid u)
    have hge := countKey_batch_mem hash now pid sid T entries u hu
    omega
  · intro k
    rw [h2]
    exact countKey_batch_le_one hash now pid sid T entries hT k
  · intro i hi
    exact frozen_batch hash now pid sid T entries i hi

/-- A concrete stand-in for the SHA-256 hex digest in the witness. -/
def hashW : String → String := fun s => String.append "h:" s

/-- Two concrete sitemap entries. -/
def entriesW : List ParsedUrl :=
  [⟨"http://t/x", none, none, none⟩, ⟨"http://t/y", some "2024-01-01", none, some "0.5"⟩]

/-- Witness for C4: the double batch upsert of two concrete entries into
the empty table. -/
theorem batch_upsert_idempotent_witness :
    (∀ k, countKey ([] : List UrlRow) k ≤ 1) ∧
    (entriesW.map (fun u => hashW u.loc)).Nodup ∧
    (batchUpsertUrls hashW 2 "p" "s" (batchUpsertUrls hashW 1 "p" "s" [] entriesW) entriesW
      = batchUpsertUrls hashW 1 "p" "s" [] entriesW ∧
    (∀ u ∈ entriesW,
      countKey (batchUpsertUrls hashW 2 "p" "s"
        (batchUpsertUrls hashW 1 "p" "s" [] entriesW) entriesW) (entryKey hashW "p" u) = 1) ∧
    (∀ k,
      countKey (batchUpsertUrls hashW 2 "p" "s"
        (batchUpsertUrls hashW 1 "p" "s" [] entriesW) entriesW) k ≤ 1) ∧
    (∀ i, i < ([] : List UrlRow).length →
      ((batchUpsertUrls hashW 1 "p" "s" [] entriesW)[i]?).map frozenPart =
        (([] : List UrlRow)[i]?).map frozenPart)) :=
  ⟨fun k => by simp [countKey], by decide,
   batch_upsert_idempotent hashW 1 2 "p" "s" [] entriesW
     (fun k => by simp [countKey]) (by decide)⟩

/-- The cyclic reference graph `sm1 → sm2 → sm1` of scenario S2. -/
def gCyc : String → List String := fun u =>
  if u = "sm1" then ["sm2"] else if u = "sm2" then ["sm1"] else []

/-- Counterexample to C5: in the cyclic graph `sm1 → sm2 → sm1` the
worker's scan run fetches `sm1` six times (depths 0, 2, 4, 6, 8, 10) —
the worker records no per-run visited set, so a URL is not fetched at
most once; only the depth cap stops the recursion. -/
theorem scanner_refetch_cycle_cex :
    (scanRun gCyc "sm1" 0).count "sm1" = 6 ∧
    (scanRun gCyc "sm1" 0).length = 11 ∧
    ¬ (6 : Nat) ≤ 1 := by decide

/-- The fetched URLs of a streamer run avoid the visited set and repeat
no URL. -/
theorem streamFetch_nodup (g : String → List String) :
    ∀ (fuel : Nat) (visited wl : List String),
      (streamFetch g fuel visited wl).Nodup ∧
      ∀ u ∈ streamFetch g fuel visited wl, u ∉ visited := by
  intro fuel
  induction fuel with
  | zero => intro visited wl; simp [streamFetch]
  | succ n ih =>
    intro visited wl
    cases wl with
    | nil => simp [streamFetch]
    | cons url rest =>
      by_cases hv : url ∈ visited
      · have heq : streamFetch g (n + 1) visited (url :: rest) =
            streamFetch g n visited rest := by
          simp [streamFetch, hv]
        rw [heq]
        exact ih visited rest
      · have heq : streamFetch g (n + 1) visited (url :: rest) =
            url :: streamFetch g n (url :: visited) (g url ++ rest) := by
          simp [streamFetch, hv]
        rw [heq]
        obtain ⟨hnd, hdisj⟩ := ih (url :: visited) (g url ++ rest)
        constructor
        · refine List.nodup_cons.2 ⟨?_, hnd⟩
          intro hmem
          exact hdisj url hmem (List.mem_cons_self _ _)
        · intro u hu
          rcases List.mem_cons.1 hu with rfl | hu'
          · exact hv
          · intro huv
            exact hdisj u hu' (List.mem_cons_of_mem _ huv)

/-- Claim C5 (amended): the worker scan terminates for every reference
graph because child jobs are spawned only while `depth <
MAX_RECURSION_DEPTH` — a job at the cap fetches its url and spawns
nothing — but it keeps no visited set, so in a cyclic graph the same
sitemap URL is fetched several times (six times for the S2 two-cycle).
The browser-side `SitemapStreamer` separately guarantees at-most-once
fetching through its per-run `visitedSitemaps` set. -/
theorem scanner_depth_cap_and_streamer_visited :
    (∀ (g : String → List String) (url : String) (depth : Nat),
      MAX_RECURSION_DEPTH ≤ depth → scanRun g url depth = [url]) ∧
    (∀ (g : String → List String) (fuel : Nat) (visited wl : List String),
      (streamFetch g fuel visited wl).Nodup) ∧
    (scanRun gCyc "sm1" 0).count "sm1" = 6 := by
  refine ⟨?_, ?_, by decide⟩
  · intro g url depth h
    rw [scanRun, Nat.sub_eq_zero_of_le h]
    rfl
  · intro g fuel visited wl
    exact (streamFetch_nodup g fuel visited wl).1

/-- Witness for the amended C5 at the cap depth and a concrete streamer
run over the cyclic graph. -/
theorem scanner_depth_cap_witness :
    MAX_RECURSION_DEPTH ≤ 10 ∧
    scanRun gCyc "sm1" 10 = ["sm1"] ∧
    (streamFetch gCyc 5 [] ["sm1"]).Nodup ∧
    streamFetch gCyc 5 [] ["sm1"] = ["sm1", "sm2"] :=
  ⟨by decide,
   (scanner_depth_cap_and_streamer_visited).1 gCyc "sm1" 10 (by decide),
   (scanner_depth_cap_and_streamer_visited).2.1 gCyc 5 [] ["sm1"],
   by decide⟩

/-! ### Lemmas about the counter aggregation -/

theorem indexed_split (table : List UrlRow) (pid s : String) :
    ((table.filter (fun r => r.projectId = pid)).filter
      (fun r => r.googleStatus = s)).length = countStatus table pid s := by
  rw [List.filter_filter]
  unfold countStatus
  congr 1
  apply List.filter_congr
  intro r _
  rw [Bool.decide_and]
  exact Bool.and_comm _ _

theorem pending_split (table : List UrlRow) (pid : String) :
    ((table.filter (fun r => r.projectId = pid)).filter
      (fun r => r.googleStatus = "DISCOVERED" ∨ r.googleStatus = "QUEUED")).length =
      countStatus table pid "DISCOVERED" + countStatus table pid "QUEUED" := by
  induction table with
  | nil => rfl
  | cons r t ih =>
    simp only [countStatus, List.filter_cons] at ih ⊢
    by_cases hp : r.projectId = pid <;>
      by_cases h1 : r.googleStatus = "DISCOVERED" <;>
      by_cases h2 : r.googleStatus = "QUEUED" <;>
      simp_all [List.filter_cons] <;> omega

theorem error_split (table : List UrlRow) (pid : String) :
    ((table.filter (fun r => r.projectId = pid)).filter
      (fun r => r.googleStatus = "ERROR_4XX" ∨ r.googleStatus = "ERROR_5XX" ∨
        r.googleStatus = "CRAWL_ERROR")).length =
      countStatus table pid "ERROR_4XX" + countStatus table pid "ERROR_5XX" +
        countStatus table pid "CRAWL_ERROR" := by
  induction table with
  | nil => rfl
  | cons r t ih =>
    simp only [countStatus, List.filter_cons] at ih ⊢
    by_cases hp : r.projectId = pid <;>
      by_cases h1 : r.googleStatus = "ERROR_4XX" <;>
      by_cases h2 : r.googleStatus = "ERROR_5XX" <;>
      by_cases h3 : r.googleStatus = "CRAWL_ERROR" <;>
      simp_all [List.filter_cons] <;> omega

theorem spec_pending_split (table : List UrlRow) (pid : String) :
    specPendingCount table pid =
      countStatus table pid "DISCOVERED" + countStatus table pid "QUEUED" +
        countStatus table pid "SUBMITTED" := by
  induction table with
  | nil => rfl
  | cons r t ih =>
    simp only [specPendingCount, countStatus, List.filter_cons] at ih ⊢
    by_cases hp : r.projectId = pid <;>
      by_cases h1 : r.googleStatus = "DISCOVERED" <;>
      by_cases h2 : r.googleStatus = "QUEUED" <;>
      by_cases h3 : r.googleStatus = "SUBMITTED" <;>
      simp_all [List.filter_cons] <;> omega

/-- A single `SUBMITTED` row of project `p`. -/
def rowSubmitted : UrlRow :=
  { projectId := "p", sitemapId := none, loc := "http://t/x", locHash := "hx",
    lastmod := none, changefreq := none, priority := none,
    googleStatus := "SUBMITTED", firstSeenAt := 0 }

/-- Counterexample to C7: on a project whose single row has
`googleStatus = SUBMITTED` the code's recomputation reports
`pending = 0` — its pending bucket is `DISCOVERED, QUEUED` only — while
the claim's grouping (pending includes `SUBMITTED`) demands 1. -/
theorem project_counters_submitted_cex :
    updateProjectStats [rowSubmitted] "p" =
      { totalUrls := 1, indexedUrls := 0, pendingUrls := 0, errorUrls := 0 } ∧
    specPendingCount [rowSubmitted] "p" = 1 ∧
    (0 : Nat) ≠ 1 := by decide

/-- Claim C7 (amended): `updateProjectStats` recomputes
`total` = all rows of the project, `indexed` = rows with status
`INDEXED`, `pending` = rows with status in `{DISCOVERED, QUEUED}` —
`SUBMITTED` rows are counted in `total` only — and
`error` = rows with status in `{ERROR_4XX, ERROR_5XX, CRAWL_ERROR}`,
and writes these four values to the project's cached counters; the
spec's pending bucket exceeds the written one by exactly the number of
`SUBMITTED` rows. -/
theorem update_project_stats_grouping (table : List UrlRow) (pid : String) :
    updateProjectStats table pid =
      { totalUrls := (table.filter (fun r => r.projectId = pid)).length
        indexedUrls := countStatus table pid "INDEXED"
        pendingUrls := countStatus table pid "DISCOVERED" + countStatus table pid "QUEUED"
        errorUrls := countStatus table pid "ERROR_4XX" + countStatus table pid "ERROR_5XX" +
          countStatus table pid "CRAWL_ERROR" } ∧
    (updateProjectStats table pid).pendingUrls + countStatus table pid "SUBMITTED" =
      specPendingCount table pid := by
  have hmk : updateProjectStats table pid =
      { totalUrls := (table.filter (fun r => r.projectId = pid)).length
        indexedUrls := countStatus table pid "INDEXED"
        pendingUrls := countStatus table pid "DISCOVERED" + countStatus table pid "QUEUED"
        errorUrls := countStatus table pid "ERROR_4XX" + countStatus table pid "ERROR_5XX" +
          countStatus table pid "CRAWL_ERROR" } := by
    simp only [updateProjectStats]
    rw [← indexed_split table pid "INDEXED", ← pending_split table pid,
      ← error_split table pid]
  refine ⟨hmk, ?_⟩
  rw [hmk, spec_pending_split]

/-- The endpoint rejects the first (full-batch) call with 422 and would
accept any later call. -/
def envC8 : Nat → FetchRes := fun call =>
  if call = 0 then .resp 422 false "Unprocessable Entity" else .resp 200 true "ok"

/-- Forty identical URLs, scenario S5. -/
def urls40 : List String := List.replicate 40 "http://t/u"

/-- Counterexample to C8: a 40-URL batch whose first call returns 422 is
never split: `attemptIndexNowBatch` stops after exactly one call with
`submitted = 0, errors = 40`, while the claimed adaptive splitting (two
accepted 20-URL halves) demands `submitted = 40, errors = 0`. -/
theorem indexnow_no_split_cex :
    attemptIndexNowBatch envC8 urls40 = (0, 40, 1) ∧
    ¬ ((0 : Nat) = 40 ∧ (40 : Nat) = 0) := by decide

theorem attemptIndexNowBatchLoop_all_or_nothing (env : Nat → FetchRes) (len : Nat) :
    ∀ retries call,
      ((attemptIndexNowBatchLoop env len call retries).1 = len ∧
        (attemptIndexNowBatchLoop env len call retries).2.1 = 0) ∨
      ((attemptIndexNowBatchLoop env len call retries).1 = 0 ∧
        (attemptIndexNowBatchLoop env len call retries).2.1 = len) := by
  intro retries
  induction retries with
  | zero =>
    intro call
    unfold attemptIndexNowBatchLoop
    cases henv : env call with
    | resp s ok t =>
      by_cases h1 : (ok || s == 200 || s == 202) = true
      · simp [h1]
      · by_cases h2 : (decide (500 ≤ s) || s == 429) = true
        · simp [h1, h2]
        · simp [h1, h2]
    | netErr m => simp
  | succ n ih =>
    intro call
    unfold attemptIndexNowBatchLoop
    cases henv : env call with
    | resp s ok t =>
      by_cases h1 : (ok || s == 200 || s == 202) = true
      · simp [h1]
      · by_cases h2 : (decide (500 ≤ s) || s == 429) = true
        · simpa [h1, h2] using ih (call + 1)
        · simp [h1, h2]
    | netErr m => simpa using ih (call + 1)

theorem attemptIndexNowBatchLoop_calls_le (env : Nat → FetchRes) (len : Nat) :
    ∀ retries call,
      (attemptIndexNowBatchLoop env len call retries).2.2 ≤ call + retries + 1 := by
  intro retries
  induction retries with
  | zero =>
    intro call
    unfold attemptIndexNowBatchLoop
    cases henv : env call with
    | resp s ok t =>
      by_cases h1 : (ok || s == 200 || s == 202) = true
      · simp [h1]
      · by_cases h2 : (decide (500 ≤ s) || s == 429) = true
        · simp [h1, h2]
        · simp [h1, h2]
    | netErr m => simp
  | succ n ih =>
    intro call
    unfold attemptIndexNowBatchLoop
    cases henv : env call with
    | resp s ok t =>
      by_cases h1 : (ok || s == 200 || s == 202) = true
      · simp [h1]
      · by_cases h2 : (decide (500 ≤ s) || s == 429) = true
        · have := ih (call + 1)
          simp only [h1, h2, if_true, if_false, Bool.false_eq_true]
          omega
        · simp [h1, h2]
    | netErr m =>
      have h := ih (call + 1)
      have harith : call + 1 + n + 1 = call + (n + 1) + 1 := by omega
      exact harith ▸ h

theorem submitToEngineLoop_calls_le (env : Nat → INResp) :
    ∀ fuel attempt, (submitToEngineLoop env attempt fuel).2 ≤ fuel + 1 := by
  intro fuel
  induction fuel with
  | zero =>
    intro attempt
    unfold submitToEngineLoop
    cases henv : env attempt <;> simp
  | succ n ih =>
    intro attempt
    unfold submitToEngineLoop
    cases henv : env attempt with
    | resp s =>
      by_cases hok : fetchOk s = true
      · simp [hok]
      · simp only [hok, if_false, Bool.false_eq_true]
        have := ih (attempt + 1)
        omega
    | netErr m =>
      have := ih (attempt + 1)
      simp only []
      omega

/-- Claim C8 (amended): neither IndexNow path splits a rejected batch.
`attemptIndexNowBatch` always reports either the whole batch submitted
or the whole batch in error — on 422 it stops at once, on 429/5xx it
retries the full batch, issuing at most three calls in total — and the
worker's `submitToEngine` retries the full URL list at most
`MAX_RETRIES + 1` times, also without splitting. -/
theorem indexnow_all_or_nothing (env : Nat → FetchRes) (envW : Nat → INResp)
    (urls : List String) :
    (((attemptIndexNowBatch env urls).1 = urls.length ∧
        (attemptIndexNowBatch env urls).2.1 = 0) ∨
      ((attemptIndexNowBatch env urls).1 = 0 ∧
        (attemptIndexNowBatch env urls).2.1 = urls.length)) ∧
    (attemptIndexNowBatch env urls).2.2 ≤ 3 ∧
    (submitToEngine envW).2 ≤ MAX_RETRIES + 1 :=
  ⟨attemptIndexNowBatchLoop_all_or_nothing env urls.length 2 0,
   attemptIndexNowBatchLoop_calls_le env urls.length 2 0,
   submitToEngineLoop_calls_le envW MAX_RETRIES 0⟩

/-- Whether an event is the closing tag of a `<url>` element — the only
event that can append to the captured url list. -/
def isUrlCloseTag : SaxEvent → Bool
  | .closetag n => toLowerStr n == "url"
  | _ => false

/-- Any event other than `</url>` leaves the captured url list
unchanged. -/
theorem saxStep_urls_of_not_urlclose (st : SaxState) (e : SaxEvent)
    (h : isUrlCloseTag e = false) :
    (saxStep st e).urls = st.urls := by
  cases e with
  | opentag n => rfl
  | text s =>
    unfold saxStep
    dsimp only
    split_ifs <;> rfl
  | closetag n =>
    have hn : toLowerStr n ≠ "url" := ne_of_beq_false (by simpa [isUrlCloseTag] using h)
    unfold saxStep
    cases hc : st.curLoc <;> simp [hc, hn]

/-- Folding a stream with no `</url>` event keeps the url list. -/
theorem foldl_saxStep_urls (events : List SaxEvent) :
    ∀ st : SaxState, (∀ e ∈ events, isUrlCloseTag e = false) →
      (events.foldl saxStep st).urls = st.urls := by
  induction events with
  | nil => intro st _; rfl
  | cons e es ih =>
    intro st h
    rw [List.foldl_cons, ih _ (fun e' he' => h e' (List.mem_cons_of_mem _ he')),
      saxStep_urls_of_not_urlclose st e (h e (List.mem_cons_self _ _))]

/-- The SAX events of a minimal RSS 2.0 document carrying one item
link. -/
def rssEvents : List SaxEvent :=
  [.opentag "rss", .opentag "channel", .opentag "item", .opentag "link",
   .text "http://e/1", .closetag "link", .closetag "item", .closetag "channel",
   .closetag "rss"]

/-- Counterexample to C9: the worker's parse loop has no RSS branch —
feeding it a well-formed RSS document yields `type = URLSET` (not RSS)
with an empty url list, against the claimed `kind = RSS` with a
non-empty list. -/
theorem sax_rss_cex :
    fetchAndParseSitemap rssEvents =
      { type := "URLSET", urls := [], childSitemaps := [] } ∧
    "URLSET" ≠ "RSS" :=
  ⟨by rfl, by decide⟩

/-- A parsed DOM document whose root is a feed: no `sitemapindex`, no
`urlset`, an `rss`/`feed` element, and three `item > link, entry > link`
nodes (text, `href`-only, and empty). -/
def rssDoc : XmlDoc :=
  { hasSitemapIndex := false, hasUrlSet := false, hasRssOrFeed := true,
    childSitemapLocs := [], urlsetLocs := [],
    feedLinks := [(some " http://e/1 ", none), (none, some "http://e/2"), (some "", none)] }

/-- Claim C9 (amended): the worker's SAX parse loop recognizes only
`INDEX` and `URLSET` — an event stream without `</url>` elements (such
as any RSS/Atom document) produces an empty url list — while the
browser-side `SitemapStreamer` detects `rss`/`feed` roots and extracts
the `item > link` text or the `entry > link` `href` attribute. -/
theorem parse_kinds_and_streamer_rss :
    (∀ events, (fetchAndParseSitemap events).type = "INDEX" ∨
      (fetchAndParseSitemap events).type = "URLSET") ∧
    (∀ events, (∀ e ∈ events, isUrlCloseTag e = false) →
      (fetchAndParseSitemap events).urls = []) ∧
    (∀ doc : XmlDoc, doc.hasSitemapIndex = false → doc.hasUrlSet = false →
      doc.hasRssOrFeed = true →
      streamerDiscover doc =
        .rssLinks (doc.feedLinks.filterMap
          (fun p => truthy (jsOrElse (p.1.map trimStr) p.2)))) ∧
    streamerDiscover rssDoc = .rssLinks ["http://e/1", "http://e/2"] := by
  refine ⟨?_, ?_, ?_, by rfl⟩
  · intro events
    unfold fetchAndParseSitemap
    dsimp only
    cases h : (events.foldl saxStep saxInit).isIndex <;> simp [h]
  · intro events h
    unfold fetchAndParseSitemap
    dsimp only
    exact foldl_saxStep_urls events saxInit h
  · intro doc h1 h2 h3
    unfold streamerDiscover
    rw [h1, h2, h3]
    rfl

/-- Witness for the amended C9 on the concrete RSS event stream and
feed document. -/
theorem parse_kinds_and_streamer_rss_witness :
    (∀ e ∈ rssEvents, isUrlCloseTag e = false) ∧
    (fetchAndParseSitemap rssEvents).urls = [] ∧
    (fetchAndParseSitemap rssEvents).type = "URLSET" ∧
    streamerDiscover rssDoc = .rssLinks ["http://e/1", "http://e/2"] :=
  ⟨by decide, parse_kinds_and_streamer_rss.2.1 rssEvents (by decide), by rfl,
   parse_kinds_and_streamer_rss.2.2.2⟩

/-- The number of sends of `msg` a delivery list makes to connection
`c`. -/
def countDeliveries (l : List (WsConn × String)) (c : WsConn) (msg : String) : Nat :=
  (l.filter (fun p => p.1 = c ∧ p.2 = msg)).length

theorem countDeliveries_append (l₁ l₂ : List (WsConn × String)) (c : WsConn)
    (msg : String) :
    countDeliveries (l₁ ++ l₂) c msg =
      countDeliveries l₁ c msg + countDeliveries l₂ c msg := by
  simp [countDeliveries, List.filter_append]

theorem countDeliveries_map (l : List WsConn) (c : WsConn) (msg : String) :
    countDeliveries (l.map (fun x => (x, msg))) c msg =
      (l.filter (fun x => x = c)).length := by
  induction l with
  | nil => rfl
  | cons a l ih =>
    by_cases ha : a = c <;>
      simp [countDeliveries, List.filter_cons, ha] at ih ⊢ <;>
      omega

theorem length_filter_eq_one {α : Type} [DecidableEq α] (l : List α) (c : α)
    (hnd : l.Nodup) (hc : c ∈ l) : (l.filter (fun x => x = c)).length = 1 := by
  induction l with
  | nil => cases hc
  | cons a l ih =>
    rcases List.nodup_cons.1 hnd with ⟨hna, hndl⟩
    rcases List.mem_cons.1 hc with rfl | hcl
    · rw [List.filter_cons, if_pos (by simp)]
      have hnil : l.filter (fun x => x = c) = [] :=
        List.filter_eq_nil_iff.2 (fun x hx => by
          simp only [decide_eq_true_eq]
          intro hxc
          exact hna (hxc ▸ hx))
      simp [hnil]
    · have ha : a ≠ c := fun h => hna (h ▸ hcl)
      rw [List.filter_cons, if_neg (by simpa using ha)]
      exact ih hndl hcl

/-- Claim C10: when an instance with registered local subscribers
broadcasts an event and the broker echoes the publish back to that same
instance's `ws:*` subscription — the receive path does not exclude
locally-originated messages — every open local subscriber receives the
event exactly twice: once directly from `broadcastToProject` and once
from the Redis receive handler. -/
theorem ws_double_delivery (conns : List WsConn) (msg : String) (c : WsConn)
    (hnd : conns.Nodup) (hc : c ∈ conns) (hopen : c.readyState = WS_OPEN) :
    countDeliveries (deliveriesWithEcho conns msg) c msg = 2 := by
  have hne : conns.isEmpty = false := by
    cases conns with
    | nil => cases hc
    | cons a l => rfl
  have hcf : c ∈ conns.filter (fun x => x.readyState = WS_OPEN) :=
    List.mem_filter.2 ⟨hc, by simp [hopen]⟩
  have hnf : (conns.filter (fun x => x.readyState = WS_OPEN)).Nodup :=
    hnd.filter _
  have hone : ((conns.filter (fun x => x.readyState = WS_OPEN)).filter
      (fun x => x = c)).length = 1 :=
    length_filter_eq_one _ c hnf hcf
  unfold deliveriesWithEcho broadcastToProject redisReceive
  simp only [hne, Bool.false_eq_true, if_false, if_true]
  rw [countDeliveries_append, countDeliveries_map, hone]

/-- Witness for C10: two registered subscribers, one open and one not;
the open one receives the event twice. -/
theorem ws_double_delivery_witness :
    ([⟨1, WS_OPEN⟩, ⟨2, 0⟩] : List WsConn).Nodup ∧
    (⟨1, WS_OPEN⟩ : WsConn) ∈ ([⟨1, WS_OPEN⟩, ⟨2, 0⟩] : List WsConn) ∧
    (⟨1, WS_OPEN⟩ : WsConn).readyState = WS_OPEN ∧
    countDeliveries (deliveriesWithEcho [⟨1, WS_OPEN⟩, ⟨2, 0⟩] "evt")
      ⟨1, WS_OPEN⟩ "evt" = 2 :=
  ⟨by decide, by decide, rfl,
   ws_double_delivery [⟨1, WS_OPEN⟩, ⟨2, 0⟩] "evt" ⟨1, WS_OPEN⟩
     (by decide) (by decide) rfl⟩

end SitemapIndexer
